import Mathlib

/-!
Verification of the dataref observation / notification subsystem and the
Loupedeck serial framing transport of the streamdecks repository.

Shallow embedding of:
  * `cockpitdecks/simulator.py` : `Dataref`, `DatarefListener`, `Simulator`
  * `cockpitdecks/buttons/representation/draw_animation.py` : `DrawAnimation`
  * `decks/Loupedeck/Devices/LoupedeckLive.py` : framing parser, `send`,
    `do_action` transaction ids.

Python values relevant to change detection are modelled by `SimValue`
(numbers as rationals, so that Python's cross-type `1 == 1.0` holds, and
strings); `None` is modelled by `Option`.  Wall-clock timestamps
(`_last_updated`, `_last_changed`) are not modelled (real time).  Listener
objects are modelled by natural-number identities; the notification calls
`dataref_changed` / `dataref_updated` are recorded as an explicit event list.
-/

/-- One Python value that can be stored in a dataref: a number (int or float,
both compared with numeric equality, as Python does) or a string. -/
inductive SimValue where
  | num (q : ℚ)
  | str (s : String)
deriving DecidableEq

/-- Python `round` to an integer uses round-half-to-even. -/
def pyRoundInt (q : ℚ) : ℤ :=
  if q - ⌊q⌋ < 1/2 then ⌊q⌋
  else if 1/2 < q - ⌊q⌋ then ⌊q⌋ + 1
  else if ⌊q⌋ % 2 = 0 then ⌊q⌋ else ⌊q⌋ + 1

/-- Python `round(q, n)` on exact numbers: scale by `10^n`, round half to
even, scale back. -/
def pyRound (q : ℚ) (n : ℤ) : ℚ :=
  (pyRoundInt (q * 10 ^ n) : ℚ) / 10 ^ n

/-- Python truthiness of the `is_string` attribute, which the source stores
as `False`, `True`, or the string `"byte"` (line 94 of simulator.py). -/
inductive PyStr where
  | pyFalse
  | pyTrue
  | pyByte
deriving DecidableEq

/-- Notification events recorded when a dataref notifies its listeners:
`updated l p` models `l.dataref_updated(self)`, `changed l p old new` models
`l.dataref_changed(self)` observing previous value `old` and current value
`new`. -/
inductive Event where
  | updated (listener : ℕ) (path : String)
  | changed (listener : ℕ) (path : String) (old new : Option SimValue)
deriving DecidableEq

/-- Is an event a `dataref_changed` notification? -/
def Event.isChanged : Event → Bool
  | .changed _ _ _ _ => true
  | _ => false

/-- Is an event a `dataref_changed` notification delivered to listener `x`? -/
def Event.isChangedFor (x : ℕ) : Event → Bool
  | .changed l _ _ _ => l == x
  | _ => false

/-- State of `Dataref` (simulator.py lines 59-110).  Field names follow the
source; timestamps are omitted (wall-clock time). -/
structure Dataref where
  path : String
  dataref : String
  index : ℤ
  length : Option ℤ
  data_type : String
  is_array : Bool
  is_decimal : Bool
  is_string : PyStr
  /-- the source's `_previous_value` (raw). -/
  rawPrevious : Option SimValue
  /-- the source's `_current_value` (raw). -/
  rawCurrent : Option SimValue
  /-- the source's `_updated` counter. -/
  nUpdated : ℕ
  /-- the source's `_changed` counter. -/
  nChanged : ℕ
  previous_value : Option SimValue
  current_value : Option SimValue
  listeners : List ℕ
  round : Option ℤ
  update_frequency : ℚ
deriving DecidableEq

/-- Python exceptions that the embedded code can raise. -/
inductive PyErr where
  | keyError (k : String)
  | valueError
  | overflowError
  | runtimeError
deriving DecidableEq

/-- Lookup in a Python dict modelled as an insertion-ordered association
list. -/
def dictGet {K V : Type} [DecidableEq K] : List (K × V) → K → Option V
  | [], _ => none
  | (k, v) :: t, k0 => if k = k0 then some v else dictGet t k0

/-- Python dict assignment `m[k] = v`: replace the binding if the key is
present, otherwise append (insertion order preserved). -/
def dictSet {K V : Type} [DecidableEq K] : List (K × V) → K → V → List (K × V)
  | [], k0, v0 => [(k0, v0)]
  | (k, v) :: t, k0, v0 => if k = k0 then (k0, v0) :: t else (k, v) :: dictSet t k0 v0

/-- Python dict deletion `del m[k]`. -/
def dictDel {K V : Type} [DecidableEq K] : List (K × V) → K → List (K × V)
  | [], _ => []
  | (k, v) :: t, k0 => if k = k0 then t else (k, v) :: dictDel t k0

/-- Parse a (possibly signed) decimal integer the way Python `int()` does on
a clean literal; `none` models a `ValueError`.  Leading/trailing whitespace
handling is not modelled (no caller produces it). -/
def pyInt : List Char → Option ℤ
  | [] => none
  | '-' :: t =>
    if t = [] ∨ ¬ t.all Char.isDigit then none
    else some (-(t.foldl (fun a c => a * 10 + (c.toNat - 48)) 0 : ℕ))
  | l =>
    if ¬ l.all Char.isDigit then none
    else some ((l.foldl (fun a c => a * 10 + (c.toNat - 48)) 0 : ℕ) : ℤ)

/-- Index of the first occurrence of `c` in a string or byte buffer, or
`none` (Python `find` returns `-1`). -/
def pyFind {α : Type} [DecidableEq α] (l : List α) (c : α) : Option ℕ :=
  match l with
  | [] => none
  | b :: t => if b = c then some 0 else (pyFind t c).map (· + 1)

/-- Python slice `l[i:j]` for nonnegative indices. -/
def pySlice (l : List Char) (i j : ℕ) : List Char :=
  (l.take j).drop i

/-- `Dataref.__init__` (simulator.py lines 59-110).  Mirrors the source
statement by statement, including the reading of the type letter from the
*stripped* path (`typ = path[-1]` executed after `path = path[:-2]`), and the
fact that only the local variable `path` is stripped while `self.path` keeps
the suffix.  `int(...)` on the array-index substring may raise, hence
`Except`. -/
def Dataref.init (path : String) (is_decimal : Bool := false)
    (is_string : PyStr := .pyFalse) (length : Option ℤ := none) :
    Except PyErr Dataref :=
  let cs := path.data
  let d0 : Dataref :=
    { path := path, dataref := path, index := 0, length := length
      data_type := "float", is_array := false
      is_decimal := is_decimal, is_string := is_string
      rawPrevious := none, rawCurrent := none
      nUpdated := 0, nChanged := 0
      previous_value := none, current_value := none
      listeners := [], round := none, update_frequency := 1 }
  -- suffix handling: `if len(path) > 3 and path[-2:-1] == ":" and path[-1] in "difsb"`
  let suffixed : Bool :=
    cs.length > 3 ∧ cs.getD (cs.length - 2) ' ' = ':' ∧
      (cs.getLastD ' ') ∈ ['d', 'i', 'f', 's', 'b']
  -- after `path = path[:-2]` the local variable holds the stripped path
  let cs1 := if suffixed then cs.dropLast.dropLast else cs
  let d1 : Dataref :=
    if suffixed then
      -- `typ = path[-1]` : read from the stripped path (the source reads the
      -- letter after stripping)
      match cs1.getLast? with
      | some 'd' => { d0 with is_decimal := true, data_type := "int" }
      | some 's' => { d0 with is_string := .pyTrue, data_type := "str", is_array := true }
      | some 'b' => { d0 with is_string := .pyByte }
      | _ => d0
    else d0
  -- decimal/string conflict: logged only, no state change
  let lengthGtOne : Bool := match d1.length with | some L => decide (L > 1) | none => false
  let d2 : Dataref :=
    if lengthGtOne then { d1 with is_array := true } else d1
  -- `if "[" in path:` tests the local (stripped) variable, but the slices
  -- are taken from `self.path` (the original string)
  if '[' ∈ cs1 then
    match pyFind cs '[' with
    | none => .ok d2   -- unreachable: cs1 is a prefix of cs
    | some i =>
      let jEnd : ℕ := match pyFind cs ']' with
        | some j => j
        | none => cs.length - 1   -- Python `find` gives -1, slice end -1 = len-1
      match pyInt (pySlice cs (i + 1) jEnd) with
      | none => .error .valueError
      | some n =>
        let d3 : Dataref :=
          { d2 with dataref := ⟨cs.take i⟩, index := n, is_array := true }
        let d4 : Dataref :=
          if d3.length = none then { d3 with length := some (n + 1) } else d3
        -- `index >= length` is only a logged integrity warning
        .ok d4
  else .ok d2

/-- `Dataref.set_round` (line 123). -/
def Dataref.set_round (d : Dataref) (rounding : Option ℤ) : Dataref :=
  { d with round := rounding }

/-- `Dataref.set_update_frequency` (lines 126-130). -/
def Dataref.set_update_frequency (d : Dataref) (frequency : Option ℚ) : Dataref :=
  match frequency with
  | some f => { d with update_frequency := f }
  | none => { d with update_frequency := 1 }

/-- `Dataref.has_changed` (lines 151-158). -/
def Dataref.has_changed (d : Dataref) : Bool :=
  if d.previous_value = none ∧ d.current_value = none then false
  else if d.previous_value = none ∧ d.current_value ≠ none then true
  else if d.previous_value ≠ none ∧ d.current_value = none then true
  else d.current_value ≠ d.previous_value

/-- Rounding applied inside `update_value` (lines 168-172): rounds only when
a rounding is configured and the new value is an `int` or `float`. -/
def applyRound (rnd : Option ℤ) (v : Option SimValue) : Option SimValue :=
  match rnd, v with
  | some n, some (.num q) => some (.num (pyRound q n))
  | _, _ => v

/-- `Dataref.notify` (lines 191-200): one `dataref_changed` call per listener,
guarded by `has_changed`. -/
def Dataref.notify (d : Dataref) : List Event :=
  if d.has_changed then
    d.listeners.map fun l => Event.changed l d.path d.previous_value d.current_value
  else []

/-- `Dataref.notify_updated` (lines 202-208): one `dataref_updated` call per
listener, unconditionally. -/
def Dataref.notify_updated (d : Dataref) : List Event :=
  d.listeners.map fun l => Event.updated l d.path

/-- `Dataref.update_value` (lines 164-182).  Returns the mutated dataref and
the notification events in emission order. -/
def Dataref.update_value (d : Dataref) (new_value : Option SimValue)
    (cascade : Bool := false) : Dataref × List Event :=
  let d1 : Dataref :=
    { d with
      rawPrevious := d.rawCurrent
      rawCurrent := new_value
      previous_value := d.current_value
      current_value := applyRound d.round new_value
      nUpdated := d.nUpdated + 1 }
  let evs := d1.notify_updated
  if d1.has_changed then
    let d2 := { d1 with nChanged := d1.nChanged + 1 }
    if cascade then (d2, evs ++ d2.notify) else (d2, evs)
  else (d1, evs)

/-- `Dataref.add_listener` (lines 184-189): a non-listener argument is only a
logged warning, the object is appended unless already present. -/
def Dataref.add_listener (d : Dataref) (obj : ℕ) : Dataref :=
  if obj ∈ d.listeners then d else { d with listeners := d.listeners ++ [obj] }

/-! ## Value registry (`Simulator`, simulator.py lines 230-391) -/

/-- State of the abstract `Simulator` registry.  Python dicts become
insertion-ordered association lists; the `dataref_db_lock` is not a state
component (the embedding is sequential, so the locked copy of
`current_values` is the field itself). -/
structure Simulator where
  inited : Bool
  use_flight_loop : Bool
  running : Bool
  all_datarefs : List (String × Dataref)
  datarefs_to_monitor : List (String × ℕ)
  simdrefValues : List (String × SimValue)
  previous_values : List (String × SimValue)
  current_values : List (String × SimValue)
  roundings : List (String × ℤ)
  dataref_frequencies : List (String × ℚ)
  startup : Bool

/-- `Simulator.__init__` (lines 235-256). -/
def Simulator.init : Simulator :=
  { inited := false, use_flight_loop := false, running := false
    all_datarefs := [], datarefs_to_monitor := [], simdrefValues := []
    previous_values := [], current_values := []
    roundings := [], dataref_frequencies := [], startup := true }

/-- `INTERNAL_DATAREF_PREFIX` (line 49). -/
def INTERNAL_DATAREF_PREFIX : String := "data:"

/-- `Dataref.is_internal_dataref` (lines 112-114): `path.startswith("data:")`. -/
def is_internal_dataref (path : String) : Bool :=
  INTERNAL_DATAREF_PREFIX.data.isPrefixOf path.data

/-- `Simulator.set_rounding` (lines 264-279). -/
def Simulator.set_rounding (s : Simulator) (d : Dataref) : Dataref :=
  match pyFind d.path.data '[' with
  | some idx =>
    if idx > 0 then
      match dictGet s.roundings d.path with
      | some rnd => d.set_round (some rnd)
      | none =>
        let base : String := ⟨d.path.data.take idx⟩
        match dictGet s.roundings (base ++ "[*]") with
        | some rnd => d.set_round (some rnd)
        | none => d
    else d.set_round (dictGet s.roundings d.path)
  | none => d.set_round (dictGet s.roundings d.path)

/-- `Simulator.set_frequency` (lines 281-296). -/
def Simulator.set_frequency (s : Simulator) (d : Dataref) : Dataref :=
  match pyFind d.path.data '[' with
  | some idx =>
    if idx > 0 then
      match dictGet s.dataref_frequencies d.path with
      | some f => d.set_update_frequency (some f)
      | none =>
        let base : String := ⟨d.path.data.take idx⟩
        match dictGet s.dataref_frequencies (base ++ "[*]") with
        | some f => d.set_update_frequency (some f)
        | none => d
    else d.set_update_frequency (dictGet s.dataref_frequencies d.path)
  | none => d.set_update_frequency (dictGet s.dataref_frequencies d.path)

/-- `Simulator.register` (lines 298-306).  `dataref.exists()` is
`path is not None`, always true for a `String` path, so a new dataref is
always added after rounding/frequency overrides. -/
def Simulator.register (s : Simulator) (d : Dataref) : Simulator :=
  if dictGet s.all_datarefs d.path = none then
    let d1 := s.set_frequency (s.set_rounding d)
    { s with all_datarefs := dictSet s.all_datarefs d.path d1 }
  else s

/-- `Simulator.add_datarefs_to_monitor` (lines 353-365): reference-counts
monitoring per path, skipping internal (`data:`) paths. -/
def Simulator.add_datarefs_to_monitor (s : Simulator) (datarefs : List Dataref) : Simulator :=
  datarefs.foldl
    (fun a d =>
      if is_internal_dataref d.path then a
      else match dictGet a.datarefs_to_monitor d.path with
        | none => { a with datarefs_to_monitor := dictSet a.datarefs_to_monitor d.path 1 }
        | some n => { a with datarefs_to_monitor := dictSet a.datarefs_to_monitor d.path (n + 1) })
    s

/-- `Simulator.remove_datarefs_to_monitor` (lines 367-382). -/
def Simulator.remove_datarefs_to_monitor (s : Simulator) (datarefs : List Dataref) : Simulator :=
  datarefs.foldl
    (fun a d =>
      if is_internal_dataref d.path then a
      else match dictGet a.datarefs_to_monitor d.path with
        | none => a   -- logged warning unless startup
        | some n =>
          if n - 1 = 0 then { a with datarefs_to_monitor := dictDel a.datarefs_to_monitor d.path }
          else { a with datarefs_to_monitor := dictSet a.datarefs_to_monitor d.path (n - 1) })
    s

/-- The transport thread storing a freshly received snapshot.
Modelled from the spec: the concrete simulator subclass that writes the
"current snapshot of freshly received values" buffer is not under `src/`;
per the spec it assigns the received path-to-value map to `current_values`
under the lock. -/
def Simulator.receive_snapshot (s : Simulator) (snap : List (String × SimValue)) : Simulator :=
  { s with current_values := snap }

/-- Body of the `detect_changed` loop for one snapshot entry (lines 318-328):
skip the path when its snapshot value equals the last-seen one, otherwise
update the registered dataref — `self.all_datarefs[d]` raises `KeyError`
when absent — cascading exactly when the path is monitored. -/
def Simulator.detectOne (s : Simulator) (d : String) (v : SimValue) :
    Except PyErr (Simulator × List Event) :=
  if dictGet s.previous_values d = none ∨ dictGet s.previous_values d ≠ some v then
    match dictGet s.all_datarefs d with
    | none => .error (.keyError d)
    | some dref =>
      if dictGet s.datarefs_to_monitor d ≠ none then
        let r := dref.update_value (some v) true
        .ok ({ s with all_datarefs := dictSet s.all_datarefs d r.1 }, r.2)
      else
        let r := dref.update_value (some v) false
        .ok ({ s with all_datarefs := dictSet s.all_datarefs d r.1 }, r.2)
  else .ok (s, [])

/-- The `for d in currvalues.keys()` loop of `detect_changed`; an exception
aborts the iteration, keeping the mutations made so far (Python in-place
mutation). -/
def Simulator.detectLoop : Simulator → List Event → List (String × SimValue) →
    Simulator × List Event × Option PyErr
  | s, evs, [] => (s, evs, none)
  | s, evs, (d, v) :: rest =>
    match s.detectOne d v with
    | .error e => (s, evs, some e)
    | .ok (s', evs') => Simulator.detectLoop s' (evs ++ evs') rest

/-- `Simulator.detect_changed` (lines 308-334): iterate over a copy of
`current_values`; only `RuntimeError` is caught by the
`except RuntimeError` clause, any other exception propagates. -/
def Simulator.detect_changed (s : Simulator) : Simulator × List Event × Option PyErr :=
  let r := s.detectLoop [] s.current_values
  match r.2.2 with
  | some .runtimeError => (r.1, r.2.1, none)   -- caught and logged
  | _ => r

/-- The `dataref_changed` events of a notification list. -/
def changedEvents (evs : List Event) : List Event :=
  evs.filter Event.isChanged

/-! ## Animation loop (`DrawAnimation`, draw_animation.py lines 32-97) -/

/-- State of `DrawAnimation` relevant to the start/stop state machine.
`running` is the source's tri-state `bool | None`; `threadsStarted` counts
`Thread.start()` calls (each is one spawned loop thread); `exit` is the
`threading.Event` created by the loop body (`none` before the loop first
runs, `some flag` afterwards with `flag` its set-state).  Spawning a thread
is modelled together with the loop's first statement
`self.exit = threading.Event()`. -/
structure DrawAnimation where
  speed : Option ℚ
  tween : ℤ
  running : Option Bool
  exit : Option Bool
  threadsStarted : ℕ
deriving DecidableEq

/-- `DrawAnimation.__init__` (lines 32-45): `speed` is always a float
(default 1), `running = None`, no thread. -/
def DrawAnimation.init (speed : ℚ := 1) : DrawAnimation :=
  { speed := some speed, tween := 0, running := none, exit := none, threadsStarted := 0 }

/-- Python truthiness of the tri-state `running` flag. -/
def pyTruthy : Option Bool → Bool
  | some b => b
  | none => false

/-- `DrawAnimation.anim_start` (lines 73-83): a no-op (logged warning) unless
`not self.running and self.speed is not None`. -/
def DrawAnimation.anim_start (a : DrawAnimation) : DrawAnimation :=
  if ¬ pyTruthy a.running ∧ a.speed ≠ none then
    { a with running := some true, threadsStarted := a.threadsStarted + 1, exit := some false }
  else a

/-- `DrawAnimation.anim_stop` (lines 85-97): a no-op unless `self.running`;
otherwise clears the flag and sets the loop's exit event (the bounded join
is a wall-clock wait, not modelled). -/
def DrawAnimation.anim_stop (a : DrawAnimation) : DrawAnimation :=
  if pyTruthy a.running then
    { a with running := some false, exit := a.exit.map fun _ => true }
  else a

/-! ## Loupedeck serial transport (LoupedeckLive.py) -/

/-- `MAX_TRANSACTIONS` (LoupedeckLive.py line 26). -/
def MAX_TRANSACTIONS : ℕ := 256

/-- `int.to_bytes(len, "big")`: big-endian byte list, raising
`OverflowError` when the integer does not fit. -/
def toBytesBE (len n : ℕ) : Except PyErr (List ℕ) :=
  if n < 256 ^ len then
    .ok ((List.range len).map fun i => n / 256 ^ (len - 1 - i) % 256)
  else .error .overflowError

/-- A `bytearray` cell assignment `prep[i] = v`: raises `ValueError` unless
`0 ≤ v < 256`. -/
def byteAssign (v : ℕ) : Except PyErr ℕ :=
  if v < 256 then .ok v else .error .valueError

/-- `LoupedeckLive.send` (lines 92-117).  Result: the byte stream written to
the connection (header write followed by payload write).  For a small
(`≤ 0x80`) payload the 6-byte header has `prep[1] = 0x80 + len(buff)` — a
`bytearray` byte, so the assignment raises `ValueError` when the sum
reaches 256 (payload of exactly 0x80 bytes). -/
def send (buff : List ℕ) (raw : Bool := false) : Except PyErr (List ℕ) :=
  if raw then .ok buff
  else if buff.length > 0x80 then
    match toBytesBE 4 buff.length with
    | .error e => .error e
    | .ok lenBytes => .ok ([0x82, 0xff, 0, 0, 0, 0] ++ lenBytes ++ [0, 0, 0, 0] ++ buff)
  else
    match byteAssign (0x80 + buff.length) with
    | .error e => .error e
    | .ok b1 => .ok ([0x82, b1, 0, 0, 0, 0] ++ buff)

/-- Framing-parser state: the accumulation buffer `self._buffer` and the
queue `self._messages` of reconstructed message payloads (FIFO, oldest
first). -/
structure LoupedeckState where
  buffer : List ℕ
  messages : List (List ℕ)
deriving DecidableEq

/-- The `while position != -1` loop of `magic_byte_length_parser`
(LoupedeckLive.py lines 156-176): repeatedly find the magic byte, stop when
the length byte or the full message is not yet buffered, otherwise extract
the payload `buffer[position+2 : position+length+2]`, drop everything
consumed (including garbage before the magic byte) and continue.  Returns
the remaining buffer and the extracted messages in order. -/
def extractMessages (magicByte : ℕ) (buffer : List ℕ) : List ℕ × List (List ℕ) :=
  match pyFind buffer magicByte with
  | none => (buffer, [])
  | some pos =>
    if h2 : buffer.length < pos + 2 then (buffer, [])
    else
      if h3 : buffer.length < pos + (buffer.getD (pos + 1) 0) + 2 then (buffer, [])
      else
        let msg := (buffer.drop (pos + 2)).take (buffer.getD (pos + 1) 0)
        let r := extractMessages magicByte (buffer.drop (pos + (buffer.getD (pos + 1) 0) + 2))
        (r.1, msg :: r.2)
termination_by buffer.length
decreasing_by
  simp only [List.length_drop]
  omega

/-- `magic_byte_length_parser` (LoupedeckLive.py lines 144-176): append the
newly read chunk to the accumulation buffer, then scan it for complete
messages and enqueue them. -/
def magic_byte_length_parse (st : LoupedeckState) (chunk : List ℕ)
    (magicByte : ℕ := 0x82) : LoupedeckState :=
  { buffer := (extractMessages magicByte (st.buffer ++ chunk)).1
    messages := st.messages ++ (extractMessages magicByte (st.buffer ++ chunk)).2 }

/-- State of `LoupedeckLive` relevant to `do_action`: the `inited` flag, the
cycling transaction id, and `pendingTransactions` (holding the tracked
`action`, or `None` once `on_default_callback` stores `None`).
Modelled from the spec where the `Loupedeck` base class (not under `src/`)
initialises them: transaction id 0 and an empty pending table. -/
structure LoupedeckLive where
  inited : Bool
  transaction_id : ℕ
  pendingTransactions : List (ℕ × Option ℕ)
deriving DecidableEq

/-- Initial `LoupedeckLive` action state after the websocket upgrade
handshake.  Modelled from the spec: the base class starts the cycling
counter at 0 with no pending transactions. -/
def LoupedeckLive.initState : LoupedeckLive :=
  { inited := true, transaction_id := 0, pendingTransactions := [] }

/-- The transaction-id step of `do_action` (lines 229-231):
`(tid + 1) % MAX_TRANSACTIONS`, then skip 0. -/
def nextTid (t : ℕ) : ℕ :=
  if (t + 1) % MAX_TRANSACTIONS = 0 then (t + 1) % MAX_TRANSACTIONS + 1
  else (t + 1) % MAX_TRANSACTIONS

/-- `LoupedeckLive.do_action` (lines 219-242).  Returns the new state and
the bytes written by `send` (or the exception raised).  Not inited: logged
warning and return without allocating.  The `data.to_bytes(1)` conversion
branch applies only to non-bytes data and is not modelled (`data` here is
already a byte list).  Mutation order follows the source: the id is
allocated before the header is built, and the pending entry is stored
before `send` runs. -/
def do_action (s : LoupedeckLive) (action : ℕ) (data : Option (List ℕ) := none)
    (track : Bool := false) : LoupedeckLive × Except PyErr (List ℕ) :=
  if ¬ s.inited then (s, .ok [])
  else
    let tid := nextTid s.transaction_id
    let s1 := { s with transaction_id := tid }
    match toBytesBE 2 action with
    | .error e => (s1, .error e)
    | .ok actionBytes =>
      match toBytesBE 1 tid with
      | .error e => (s1, .error e)
      | .ok tidBytes =>
        let payload := actionBytes ++ tidBytes ++ data.getD []
        let s2 :=
          if track then
            { s1 with pendingTransactions := dictSet s1.pendingTransactions tid (some action) }
          else s1
        (s2, send payload)

/-! ## Helper lemmas about `Dataref.update_value` -/

/-- `has_changed` is exactly inequality of the stored `Option` values: the
"no value" special rule coincides with `Option` equality. -/
theorem has_changed_iff (d : Dataref) :
    d.has_changed = true ↔ d.current_value ≠ d.previous_value := by
  rcases h1 : d.previous_value with _ | p <;> rcases h2 : d.current_value with _ | c <;>
    simp [Dataref.has_changed, h1, h2]

/-- The dataref state written by `update_value` before the change check. -/
def Dataref.updatedState (d : Dataref) (new_value : Option SimValue) : Dataref :=
  { d with
    rawPrevious := d.rawCurrent
    rawCurrent := new_value
    previous_value := d.current_value
    current_value := applyRound d.round new_value
    nUpdated := d.nUpdated + 1 }

/-- `update_value` unfolded: the stored state is `updatedState`, the change
counter is bumped exactly when `has_changed`, and the events are the
"updated" fan-out followed, under `cascade` and an actual change, by the
"changed" fan-out. -/
theorem update_value_eq (d : Dataref) (v : Option SimValue) (c : Bool) :
    d.update_value v c =
      if (d.updatedState v).has_changed then
        (if c then
          ({ d.updatedState v with nChanged := (d.updatedState v).nChanged + 1 },
            (d.updatedState v).notify_updated ++
              ({ d.updatedState v with nChanged := (d.updatedState v).nChanged + 1 }).notify)
        else
          ({ d.updatedState v with nChanged := (d.updatedState v).nChanged + 1 },
            (d.updatedState v).notify_updated))
      else (d.updatedState v, (d.updatedState v).notify_updated) := rfl

theorem update_value_current (d : Dataref) (v : Option SimValue) (c : Bool) :
    (d.update_value v c).1.current_value = applyRound d.round v := by
  rw [update_value_eq]
  split
  · split <;> rfl
  · rfl

theorem update_value_previous (d : Dataref) (v : Option SimValue) (c : Bool) :
    (d.update_value v c).1.previous_value = d.current_value := by
  rw [update_value_eq]
  split
  · split <;> rfl
  · rfl

theorem update_value_round (d : Dataref) (v : Option SimValue) (c : Bool) :
    (d.update_value v c).1.round = d.round := by
  rw [update_value_eq]
  split
  · split <;> rfl
  · rfl

theorem update_value_listeners (d : Dataref) (v : Option SimValue) (c : Bool) :
    (d.update_value v c).1.listeners = d.listeners := by
  rw [update_value_eq]
  split
  · split <;> rfl
  · rfl

theorem update_value_nUpdated (d : Dataref) (v : Option SimValue) (c : Bool) :
    (d.update_value v c).1.nUpdated = d.nUpdated + 1 := by
  rw [update_value_eq]
  split
  · split <;> rfl
  · rfl

/-- The result of `update_value` reports the same `has_changed` verdict as
the branch condition (the counters do not enter `has_changed`). -/
theorem update_value_has_changed (d : Dataref) (v : Option SimValue) (c : Bool) :
    (d.update_value v c).1.has_changed = (d.updatedState v).has_changed := by
  rw [update_value_eq]
  split
  · rename_i h
    split <;> simp_all [Dataref.has_changed]
  · rename_i h
    simp_all [Dataref.has_changed]

/-- An "updated" fan-out contains no `dataref_changed` events. -/
theorem changedEvents_notify_updated (d : Dataref) :
    changedEvents d.notify_updated = [] := by
  simp [changedEvents, Dataref.notify_updated, List.filter_map, Function.comp_def,
    Event.isChanged]

/-- The plain dataref at path `"a/b"`. -/
def drefAB : Dataref :=
  { path := "a/b", dataref := "a/b", index := 0, length := none
    data_type := "float", is_array := false
    is_decimal := false, is_string := .pyFalse
    rawPrevious := none, rawCurrent := none
    nUpdated := 0, nChanged := 0
    previous_value := none, current_value := none
    listeners := [], round := none, update_frequency := 1 }

/-- `drefAB` is exactly what the source constructor builds for `"a/b"`. -/
theorem drefAB_mk : Dataref.init "a/b" = .ok drefAB := rfl

/-- After two successive `update_value` calls, `has_changed` is exactly
inequality of the two *stored* values, i.e. of the arguments after the
configured rounding. -/
theorem update_twice_has_changed (d : Dataref) (v1 v2 : Option SimValue) (c1 c2 : Bool) :
    (((d.update_value v1 c1).1.update_value v2 c2).1).has_changed
      = decide (applyRound d.round v2 ≠ applyRound d.round v1) := by
  have h1 : (((d.update_value v1 c1).1.update_value v2 c2).1).current_value
      = applyRound d.round v2 := by
    rw [update_value_current, update_value_round]
  have h2 : (((d.update_value v1 c1).1.update_value v2 c2).1).previous_value
      = applyRound d.round v1 := by
    rw [update_value_previous, update_value_current]
  by_cases hne : applyRound d.round v2 = applyRound d.round v1
  · have : ¬ ((((d.update_value v1 c1).1.update_value v2 c2).1).has_changed = true) := by
      rw [has_changed_iff, h1, h2]
      simp [hne]
    simp only [Bool.not_eq_true] at this
    simp [this, hne]
  · have : (((d.update_value v1 c1).1.update_value v2 c2).1).has_changed = true := by
      rw [has_changed_iff, h1, h2]
      exact hne
    simp [this, hne]

/-- Python rounds 1/5 to 0 at precision 0. -/
theorem pyRound_fifth : pyRound (1/5) 0 = 0 := by
  have hf : ⌊(1/5 : ℚ)⌋ = 0 := by
    rw [Int.floor_eq_iff] <;> norm_num
  rw [pyRound, pyRoundInt]
  norm_num [hf]

/-- Python rounds 3/10 to 0 at precision 0. -/
theorem pyRound_three_tenths : pyRound (3/10) 0 = 0 := by
  have hf : ⌊(3/10 : ℚ)⌋ = 0 := by
    rw [Int.floor_eq_iff] <;> norm_num
  rw [pyRound, pyRoundInt]
  norm_num [hf]

/-- C3, the claim as stated, fails on a dataref with a rounding precision:
with rounding 0, `update_value(0.2)` then `update_value(0.3)` leaves
`has_changed()` false although `0.3 ≠ 0.2` (both round to `0`). -/
theorem C3_counterexample :
    ((((drefAB.set_round (some 0)).update_value (some (.num (1/5))) false).1.update_value
        (some (.num (3/10))) false).1).has_changed = false
    ∧ (some (SimValue.num (3/10)) : Option SimValue) ≠ some (SimValue.num (1/5)) := by
  constructor
  · rw [update_twice_has_changed]
    have hr : (drefAB.set_round (some 0)).round = some 0 := rfl
    have e2 : applyRound (some 0) (some (SimValue.num (3/10))) = some (.num (pyRound (3/10) 0)) := rfl
    have e1 : applyRound (some 0) (some (SimValue.num (1/5))) = some (.num (pyRound (1/5) 0)) := rfl
    rw [hr, e2, e1, pyRound_three_tenths, pyRound_fifth]
    simp
  · simp only [ne_eq, Option.some.injEq, SimValue.num.injEq]
    norm_num

/-- C3 (amended): after `update_value(v1)` then `update_value(v2)`,
`has_changed()` is true iff the stored values differ, i.e. iff `v2` and `v1`
differ after the configured rounding is applied (plain `v2 ≠ v1`, with the
stated `None` rule, when no rounding is set). -/
theorem C3_amended (d : Dataref) (v1 v2 : Option SimValue) (c1 c2 : Bool) :
    ((((d.update_value v1 c1).1).update_value v2 c2).1).has_changed = true
      ↔ applyRound d.round v2 ≠ applyRound d.round v1 := by
  rw [update_twice_has_changed]
  simp

/-- Without rounding, the amended C3 specializes to the claim's rule:
`has_changed` iff `v2 ≠ v1` as `Option` values (the `None` transition rule
is exactly `Option` inequality). -/
theorem C3_no_rounding (d : Dataref) (v1 v2 : Option SimValue) (c1 c2 : Bool)
    (h : d.round = none) :
    ((((d.update_value v1 c1).1).update_value v2 c2).1).has_changed = true ↔ v2 ≠ v1 := by
  rw [update_twice_has_changed]
  simp [applyRound, h]

/-- C10: with a rounding precision set, change detection operates on rounded
values: two successive raw updates that round to the same number both bump
the update counter, but the second leaves the change counter untouched and
fires no `dataref_changed` notification even under `cascade=True`. -/
theorem C10_rounding_masks_changes (d : Dataref) (n : ℤ) (q1 q2 : ℚ) (c1 : Bool)
    (hr : d.round = some n) (hq : pyRound q1 n = pyRound q2 n) :
    ((d.update_value (some (.num q1)) c1).1.update_value (some (.num q2)) true).1.nUpdated
        = d.nUpdated + 2
    ∧ ((d.update_value (some (.num q1)) c1).1.update_value (some (.num q2)) true).1.nChanged
        = (d.update_value (some (.num q1)) c1).1.nChanged
    ∧ changedEvents ((d.update_value (some (.num q1)) c1).1.update_value
        (some (.num q2)) true).2 = [] := by
  have happ : applyRound d.round (some (.num q2)) = applyRound d.round (some (.num q1)) := by
    rw [hr]
    simp only [applyRound, hq]
  have hfalse :
      (((d.update_value (some (.num q1)) c1).1).updatedState (some (.num q2))).has_changed
        = false := by
    have h := update_twice_has_changed d (some (.num q1)) (some (.num q2)) c1 true
    rw [update_value_has_changed] at h
    rw [h, happ]
    simp
  have hupd : ((d.update_value (some (.num q1)) c1).1).update_value (some (.num q2)) true
      = (((d.update_value (some (.num q1)) c1).1).updatedState (some (.num q2)),
         (((d.update_value (some (.num q1)) c1).1).updatedState (some (.num q2))).notify_updated) := by
    rw [update_value_eq, hfalse]
    simp
  refine ⟨?_, ?_, ?_⟩
  · rw [update_value_nUpdated, update_value_nUpdated]
  · rw [hupd]
    rfl
  · rw [hupd]
    exact changedEvents_notify_updated _

/-- C10 witness data: both 0.2 and 0.3 round to 0 at precision 0, so the
second update is counted but not treated as a change. -/
theorem C10_witness :
    (((drefAB.set_round (some 0)).update_value (some (.num (1/5))) false).1.update_value
        (some (.num (3/10))) true).1.nUpdated = (drefAB.set_round (some 0)).nUpdated + 2
    ∧ (((drefAB.set_round (some 0)).update_value (some (.num (1/5))) false).1.update_value
        (some (.num (3/10))) true).1.nChanged
        = ((drefAB.set_round (some 0)).update_value (some (.num (1/5))) false).1.nChanged
    ∧ changedEvents (((drefAB.set_round (some 0)).update_value (some (.num (1/5))) false).1.update_value
        (some (.num (3/10))) true).2 = [] :=
  C10_rounding_masks_changes (drefAB.set_round (some 0)) 0 (1/5) (3/10) false rfl
    (by rw [pyRound_fifth, pyRound_three_tenths])

/-- Under `cascade=True`, one cascade delivers exactly one `dataref_changed`
call per occurrence of a listener in the listener list (and none when the
value did not change). -/
theorem update_value_countP_changedFor (d : Dataref) (v : Option SimValue) (x : ℕ) :
    ((d.update_value v true).2.countP (Event.isChangedFor x))
      = if (d.update_value v true).1.has_changed = true then d.listeners.count x else 0 := by
  rw [update_value_has_changed, update_value_eq]
  by_cases h : (d.updatedState v).has_changed = true
  · have hn : ({ d.updatedState v with nChanged := (d.updatedState v).nChanged + 1}).notify
        = d.listeners.map fun l =>
            Event.changed l (d.updatedState v).path (d.updatedState v).previous_value
              (d.updatedState v).current_value := by
      rw [Dataref.notify]
      have : ({ d.updatedState v with
          nChanged := (d.updatedState v).nChanged + 1}).has_changed = true := h
      simp only [this, if_true]
      rfl
    simp only [h, if_true, List.countP_append, hn, Dataref.notify_updated,
      List.countP_map]
    have h0 : (Event.isChangedFor x ∘ fun l => Event.updated l (d.updatedState v).path)
        = fun _ => false := by
      funext l
      rfl
    have h1 : (Event.isChangedFor x ∘ fun l =>
        Event.changed l (d.updatedState v).path (d.updatedState v).previous_value
          (d.updatedState v).current_value) = fun l => l == x := by
      funext l
      rfl
    rw [h0, h1]
    simp [List.count, Dataref.updatedState]
  · simp only [h, if_false, Bool.not_eq_true] at *
    simp only [h, Bool.false_eq_true, if_false, Dataref.notify_updated, List.countP_map]
    have h0 : (Event.isChangedFor x ∘ fun l => Event.updated l (d.updatedState v).path)
        = fun _ => false := by
      funext l
      rfl
    rw [h0]
    simp

/-- C8: registering the same listener twice is idempotent — the listener
list holds exactly one entry for it (given it was not already duplicated,
which `add_listener` never produces) — so a change cascade delivers its
`dataref_changed` exactly once (and zero times when nothing changed). -/
theorem C8_add_listener_idempotent (d : Dataref) (x : ℕ)
    (h : d.listeners.count x ≤ 1) :
    ((d.add_listener x).add_listener x).listeners.count x = 1
    ∧ ∀ v : Option SimValue,
        (((d.add_listener x).add_listener x).update_value v true).2.countP
            (Event.isChangedFor x)
          = if (((d.add_listener x).add_listener x).update_value v true).1.has_changed = true
            then 1 else 0 := by
  have hmem : ∀ e : Dataref, x ∈ e.listeners → e.add_listener x = e := by
    intro e hx
    simp [Dataref.add_listener, hx]
  have hcount : ((d.add_listener x).add_listener x).listeners.count x = 1 := by
    by_cases hx : x ∈ d.listeners
    · rw [hmem d hx, hmem d hx]
      have : 0 < d.listeners.count x := List.count_pos_iff.mpr hx
      omega
    · have h1 : (d.add_listener x).listeners = d.listeners ++ [x] := by
        simp [Dataref.add_listener, hx]
      have hx2 : x ∈ (d.add_listener x).listeners := by
        rw [h1]
        simp
      rw [hmem _ hx2, h1, List.count_append]
      have : d.listeners.count x = 0 := by
        rwa [List.count_eq_zero]
      simp [this]
  refine ⟨hcount, fun v => ?_⟩
  rw [update_value_countP_changedFor, hcount]

/-- C8 witness: double registration of listener 0 on a fresh dataref leaves
one entry, and a cascading update fires one `dataref_changed` for it. -/
theorem C8_witness :
    ((drefAB.add_listener 0).add_listener 0).listeners.count 0 = 1
    ∧ (((drefAB.add_listener 0).add_listener 0).update_value (some (.num 5)) true).2.countP
          (Event.isChangedFor 0)
        = if (((drefAB.add_listener 0).add_listener 0).update_value
              (some (.num 5)) true).1.has_changed = true
          then 1 else 0 :=
  ⟨(C8_add_listener_idempotent drefAB 0 (by decide)).1,
   (C8_add_listener_idempotent drefAB 0 (by decide)).2 (some (.num 5))⟩

/-- C7: what the constructor actually does on the typed path `"a/b:d"` — the
claim says the `d` suffix yields a decimal/integer declared type and that
the canonical stored path is the stripped `"a/b"`; instead the code reads
the type letter from the already-stripped path (getting `b`, hence
`is_string = "byte"`), leaves `data_type = "float"` and `is_decimal = False`,
and stores the unstripped `"a/b:d"` in both `path` and `dataref`. -/
theorem C7_suffix_bug :
    (Dataref.init "a/b:d").map
        (fun d => (d.path, d.dataref, d.data_type, d.is_decimal, d.is_string))
      = .ok ("a/b:d", "a/b:d", "float", false, .pyByte) := rfl

/-- C9: starting the animation when it is already running is a no-op (the
running flag stays true and no second loop thread is spawned), while
stop-then-start always yields a running loop with exactly one freshly
spawned thread. -/
theorem C9_anim_start_stop (a : DrawAnimation) :
    (a.running = some true → a.anim_start = a)
    ∧ (a.speed ≠ none →
        (a.anim_stop.anim_start).running = some true
        ∧ (a.anim_stop.anim_start).threadsStarted = a.threadsStarted + 1) := by
  have hstart : ∀ b : DrawAnimation, pyTruthy b.running = false → b.speed ≠ none →
      b.anim_start
        = { b with running := some true, threadsStarted := b.threadsStarted + 1, exit := some false } := by
    intro b h1 h2
    rw [DrawAnimation.anim_start, if_pos]
    exact ⟨by simp [h1], h2⟩
  constructor
  · intro h
    rw [DrawAnimation.anim_start, if_neg]
    intro hcond
    rw [h] at hcond
    exact hcond.1 rfl
  · intro hs
    by_cases hr : pyTruthy a.running = true
    · have hstop : a.anim_stop
          = { a with running := some false, exit := a.exit.map fun _ => true } := by
        rw [DrawAnimation.anim_stop, if_pos hr]
      rw [hstop,
        hstart { a with running := some false, exit := a.exit.map fun _ => true } rfl hs]
      exact ⟨rfl, rfl⟩
    · have hstop : a.anim_stop = a := by
        rw [DrawAnimation.anim_stop, if_neg hr]
      rw [hstop, hstart a (by simpa using hr) hs]
      exact ⟨rfl, rfl⟩

/-- C9 witness: on a fresh animation with speed 1, start-after-start keeps
the single loop, and stop-then-start spawns exactly one new loop. -/
theorem C9_witness :
    ((DrawAnimation.init 1).anim_start.anim_start = (DrawAnimation.init 1).anim_start)
    ∧ (((DrawAnimation.init 1).anim_stop.anim_start).running = some true
       ∧ ((DrawAnimation.init 1).anim_stop.anim_start).threadsStarted
           = (DrawAnimation.init 1).threadsStarted + 1) :=
  ⟨(C9_anim_start_stop (DrawAnimation.init 1).anim_start).1 (by decide),
   (C9_anim_start_stop (DrawAnimation.init 1)).2 (by decide)⟩

/-- C5 (amended): a payload of fewer than 0x80 bytes gets the 6-byte header
`[0x82, 0x80+len, 0,0,0,0]`; a payload of more than 0x80 bytes (below 2^32)
gets the 14-byte header `[0x82, 0xFF, 0×4, len as 4-byte big-endian, 0×4]`;
a payload of exactly 0x80 bytes raises `ValueError` (the header byte
`0x80 + 0x80 = 0x100` does not fit a `bytearray` cell), so nothing is
written. -/
theorem send_small (buff : List ℕ) (h : buff.length < 0x80) :
    send buff = .ok ([0x82, 0x80 + buff.length, 0, 0, 0, 0] ++ buff) := by
  have hgt : ¬ (buff.length > 0x80) := by omega
  have hba : byteAssign (0x80 + buff.length) = .ok (0x80 + buff.length) := by
    rw [byteAssign, if_pos]
    omega
  simp only [send, Bool.false_eq_true, if_false, hgt, hba]

theorem send_boundary (buff : List ℕ) (h : buff.length = 0x80) :
    send buff = .error .valueError := by
  have hgt : ¬ (buff.length > 0x80) := by omega
  have hba : byteAssign (0x80 + buff.length) = .error .valueError := by
    rw [byteAssign, if_neg]
    omega
  simp only [send, Bool.false_eq_true, if_false, hgt, hba]

theorem send_large (buff : List ℕ) (h1 : 0x80 < buff.length) (h2 : buff.length < 2 ^ 32) :
    send buff = .ok ([0x82, 0xff, 0, 0, 0, 0]
      ++ [buff.length / 256 ^ 3 % 256, buff.length / 256 ^ 2 % 256,
          buff.length / 256 ^ 1 % 256, buff.length / 256 ^ 0 % 256]
      ++ [0, 0, 0, 0] ++ buff) := by
  have hlt : buff.length < 256 ^ 4 := by
    have : (256 : ℕ) ^ 4 = 2 ^ 32 := by norm_num
    omega
  have htb : toBytesBE 4 buff.length
      = .ok ((List.range 4).map fun i => buff.length / 256 ^ (4 - 1 - i) % 256) := by
    rw [toBytesBE, if_pos hlt]
  have hmap : ((List.range 4).map fun i => buff.length / 256 ^ (4 - 1 - i) % 256)
      = [buff.length / 256 ^ 3 % 256, buff.length / 256 ^ 2 % 256,
         buff.length / 256 ^ 1 % 256, buff.length / 256 ^ 0 % 256] := rfl
  simp only [send, Bool.false_eq_true, if_false, h1, if_pos, htb, hmap]

theorem C5_send_framing (buff : List ℕ) :
    (buff.length < 0x80 → send buff = .ok ([0x82, 0x80 + buff.length, 0, 0, 0, 0] ++ buff))
    ∧ (buff.length = 0x80 → send buff = .error .valueError)
    ∧ (0x80 < buff.length → buff.length < 2 ^ 32 →
        send buff = .ok ([0x82, 0xff, 0, 0, 0, 0]
          ++ [buff.length / 256 ^ 3 % 256, buff.length / 256 ^ 2 % 256,
              buff.length / 256 ^ 1 % 256, buff.length / 256 ^ 0 % 256]
          ++ [0, 0, 0, 0] ++ buff)) :=
  ⟨send_small buff, send_boundary buff, send_large buff⟩

/-- C5, the claim as stated, fails at the boundary payload length 0x80: the
code raises `ValueError` instead of writing the 6-byte header the claim
promises for lengths up to and including 0x80. -/
theorem C5_counterexample :
    send (List.replicate 0x80 0)
        ≠ .ok ([0x82, 0x80 + (List.replicate 0x80 0).length, 0, 0, 0, 0]
            ++ List.replicate 0x80 0)
    ∧ send (List.replicate 0x80 0) = .error .valueError := by
  have h : send (List.replicate 0x80 0) = .error .valueError :=
    send_boundary _ (by simp)
  refine ⟨?_, h⟩
  rw [h]
  intro hc
  exact Except.noConfusion hc

/-- C5 witness: a 3-byte payload gets the small header, a 0x81-byte payload
gets the large header. -/
theorem C5_witness :
    send [1, 2, 3] = .ok ([0x82, 0x80 + [1, 2, 3].length, 0, 0, 0, 0] ++ [1, 2, 3])
    ∧ send (List.replicate 0x81 7) = .ok ([0x82, 0xff, 0, 0, 0, 0]
        ++ [(List.replicate 0x81 7).length / 256 ^ 3 % 256,
            (List.replicate 0x81 7).length / 256 ^ 2 % 256,
            (List.replicate 0x81 7).length / 256 ^ 1 % 256,
            (List.replicate 0x81 7).length / 256 ^ 0 % 256]
        ++ [0, 0, 0, 0] ++ List.replicate 0x81 7) :=
  ⟨(C5_send_framing [1, 2, 3]).1 (by decide),
   (C5_send_framing (List.replicate 0x81 7)).2.2 (by simp) (by simp)⟩

set_option maxRecDepth 40000 in
/-- C4, the no-reuse part of the claim as stated, fails: starting from the
initial state, one tracked `do_action` allocates id 1 (pending table
`{1: action}`, well below the id space); after 254 further allocations the
counter stands at 255, and the very next `do_action` allocates id 1 again
even though id 1 is still pending. -/
theorem C4_counterexample :
    (do_action ((fun s => (do_action s 3 none false).1)^[254]
        ((do_action LoupedeckLive.initState 3 none true).1)) 3 none false).1.transaction_id = 1
    ∧ dictGet ((fun s => (do_action s 3 none false).1)^[254]
        ((do_action LoupedeckLive.initState 3 none true).1)).pendingTransactions 1
        = some (some 3)
    ∧ ((fun s => (do_action s 3 none false).1)^[254]
        ((do_action LoupedeckLive.initState 3 none true).1)).pendingTransactions.length < 255 := by
  refine ⟨?_, ?_, ?_⟩ <;> decide

/-- C4 (amended): the `do_action` transaction-id allocator never yields 0,
increments by one below the maximum, and wraps from 255 back to 1 — but it
never consults the pending-transactions table, so an id that stays pending
for a full cycle of 255 subsequent allocations is reassigned while still
pending, regardless of how few requests are pending. -/
theorem C4_tid_allocator :
    (∀ t, nextTid t ≠ 0)
    ∧ nextTid 255 = 1
    ∧ (∀ t, t + 1 < MAX_TRANSACTIONS → nextTid t = t + 1)
    ∧ (∀ (s : LoupedeckLive) (action : ℕ) (data : Option (List ℕ)) (track : Bool),
        s.inited = true →
        (do_action s action data track).1.transaction_id = nextTid s.transaction_id
        ∧ (do_action s action data track).1.pendingTransactions
            = (if track ∧ action < 256 ^ 2 then
                dictSet s.pendingTransactions (nextTid s.transaction_id) (some action)
              else s.pendingTransactions)) := by
  refine ⟨?_, rfl, ?_, ?_⟩
  · intro t
    simp only [nextTid, MAX_TRANSACTIONS]
    split <;> omega
  · intro t h
    simp only [nextTid, MAX_TRANSACTIONS] at *
    rw [Nat.mod_eq_of_lt h]
    split <;> omega
  · intro s action data track h
    rw [do_action, if_neg (by simp [h])]
    by_cases ha : action < 256 ^ 2
    · have htb : toBytesBE 2 action
          = .ok ((List.range 2).map fun i => action / 256 ^ (2 - 1 - i) % 256) := by
        rw [toBytesBE, if_pos ha]
      have htb1 : toBytesBE 1 (nextTid s.transaction_id)
          = .ok ((List.range 1).map fun i =>
              nextTid s.transaction_id / 256 ^ (1 - 1 - i) % 256) := by
        rw [toBytesBE, if_pos]
        have h1 : nextTid s.transaction_id ≤ 255 := by
          simp only [nextTid, MAX_TRANSACTIONS]
          split
          · omega
          · have := Nat.mod_lt (s.transaction_id + 1) (show 0 < 256 by omega)
            omega
        simpa using by omega
      have hpow : (256 : ℕ) ^ 2 = 65536 := by norm_num
      have ha2 := ha
      rw [hpow] at ha2
      by_cases ht : track
      · simp [htb, htb1, ht, ha, ha2, hpow]
      · simp [htb, htb1, ht, ha, ha2, hpow]
    · have htb : toBytesBE 2 action = .error .overflowError := by
        rw [toBytesBE, if_neg ha]
      have hpow : (256 : ℕ) ^ 2 = 65536 := by norm_num
      rw [hpow] at ha
      simp [htb, ha]

/-- C4 witness: from a state with counter 7, the next allocation is 8, also
as reported by `do_action` on an inited device. -/
theorem C4_witness :
    nextTid 7 = 7 + 1
    ∧ (do_action { inited := true, transaction_id := 7, pendingTransactions := [] }
        3 none false).1.transaction_id = nextTid 7 :=
  ⟨C4_tid_allocator.2.2.1 7 (by decide),
   (C4_tid_allocator.2.2.2 { inited := true, transaction_id := 7, pendingTransactions := [] }
      3 none false rfl).1⟩

/-! ## Change detection: C1 and C6 -/

/-- Overwriting one key preserves presence of every key. -/
theorem dictGet_dictSet_ne {K V : Type} [DecidableEq K] (m : List (K × V)) (k p : K) (v : V)
    (h : dictGet m p ≠ none) : dictGet (dictSet m k v) p ≠ none := by
  induction m with
  | nil => exact absurd rfl h
  | cons e t ih =>
    obtain ⟨k1, v1⟩ := e
    rw [dictSet]
    by_cases hk : k1 = k
    · rw [if_pos hk]
      rw [dictGet] at h ⊢
      by_cases hp : k = p
      · simp [hp]
      · rw [if_neg hp]
        rw [hk] at h
        rwa [if_neg hp] at h
    · rw [if_neg hk]
      rw [dictGet] at h ⊢
      by_cases hp : k1 = p
      · simp [hp]
      · rw [if_neg hp] at h ⊢
        exact ih h

/-- When the snapshot path is registered, the per-path detection step cannot
raise, and it preserves the set of registered paths. -/
theorem detectOne_ok (s : Simulator) (d : String) (v : SimValue)
    (h : dictGet s.all_datarefs d ≠ none) :
    ∃ s' evs, s.detectOne d v = .ok (s', evs)
      ∧ ∀ p, dictGet s.all_datarefs p ≠ none → dictGet s'.all_datarefs p ≠ none := by
  rcases ha : dictGet s.all_datarefs d with _ | dref
  · exact absurd ha h
  · by_cases hc : dictGet s.previous_values d = none ∨ dictGet s.previous_values d ≠ some v
    · by_cases hm : dictGet s.datarefs_to_monitor d ≠ none
      · refine ⟨{ s with all_datarefs := dictSet s.all_datarefs d (dref.update_value (some v) true).1 }, (dref.update_value (some v) true).2, ?_, ?_⟩
        · simp only [Simulator.detectOne, if_pos hc, ha, if_pos hm]
        · intro p hp
          exact dictGet_dictSet_ne _ _ _ _ hp
      · refine ⟨{ s with all_datarefs := dictSet s.all_datarefs d (dref.update_value (some v) false).1 }, (dref.update_value (some v) false).2, ?_, ?_⟩
        · simp only [Simulator.detectOne, if_pos hc, ha, if_neg hm]
        · intro p hp
          exact dictGet_dictSet_ne _ _ _ _ hp
    · refine ⟨s, [], ?_, fun p hp => hp⟩
      simp only [Simulator.detectOne, if_neg hc]

/-- The detection loop never stops on an error while every remaining
snapshot path is registered. -/
theorem detectLoop_no_error (entries : List (String × SimValue)) :
    ∀ (s : Simulator) (evs : List Event),
      (∀ p v, (p, v) ∈ entries → dictGet s.all_datarefs p ≠ none) →
      (Simulator.detectLoop s evs entries).2.2 = none := by
  induction entries with
  | nil => intro s evs _; rfl
  | cons e rest ih =>
    intro s evs hall
    obtain ⟨d, v⟩ := e
    obtain ⟨s', evs', hok, hpres⟩ :=
      detectOne_ok s d v (hall d v (List.mem_cons_self _ _))
    rw [Simulator.detectLoop, hok]
    exact ih s' (evs ++ evs') fun p v0 hm =>
      hpres p (hall p v0 (List.mem_cons_of_mem _ hm))

/-- A registry whose snapshot mentions a path with no registered dataref. -/
def simMissingPath : Simulator :=
  { Simulator.init with current_values := [("p", .num 1)] }

/-- C6, the claim as stated, fails: the `try`/`except RuntimeError` in
`detect_changed` does not catch the `KeyError` raised by
`self.all_datarefs[d]` for a snapshot path absent from the all-values map —
the exception propagates to the caller. -/
theorem C6_counterexample :
    simMissingPath.detect_changed.2.2 = some (.keyError "p")
    ∧ simMissingPath.detect_changed.2.2 ≠ none := by
  refine ⟨rfl, ?_⟩
  intro h
  exact Option.noConfusion (rfl.trans h : some (PyErr.keyError "p") = none)

/-- C6 (amended): `detect_changed` catches (and logs) only `RuntimeError`;
it raises no exception whenever every snapshot path has a registered
dataref, but a `KeyError` from a snapshot path absent from the all-values
map propagates to the caller. -/
theorem C6_detect_changed_no_error (s : Simulator)
    (h : ∀ p v, (p, v) ∈ s.current_values → dictGet s.all_datarefs p ≠ none) :
    s.detect_changed.2.2 = none := by
  rw [Simulator.detect_changed]
  have hloop := detectLoop_no_error s.current_values s [] h
  rcases hr : (Simulator.detectLoop s [] s.current_values) with ⟨s', evs', err⟩
  rw [hr] at hloop
  simp only at hloop
  simp [hloop]

/-- A registry whose single snapshot path is registered. -/
def simRegisteredPath : Simulator :=
  { Simulator.init with
    all_datarefs := [("p", drefAB)]
    current_values := [("p", .num 1)] }

/-- C6 witness: a registry whose single snapshot path is registered
completes the pass without an exception. -/
theorem C6_witness : simRegisteredPath.detect_changed.2.2 = none :=
  C6_detect_changed_no_error _ (by
    intro p v hm
    simp only [simRegisteredPath, Simulator.init, List.mem_singleton, Prod.mk.injEq] at hm
    rw [hm.1]
    decide)

/-- The dataref at `"a/b"` with one registered listener (id 0). -/
def drefABL : Dataref := drefAB.add_listener 0

/-- C1 trace, initial state: register the dataref, give `"a/b"` monitor
count 1, receive the snapshot `{"a/b": 1.0}`. -/
def traceS0 : Simulator :=
  ((Simulator.init.register drefABL).add_datarefs_to_monitor [drefABL]).receive_snapshot
    [("a/b", .num 1)]

/-- C1 trace, first detection pass. -/
def traceP1 := traceS0.detect_changed

/-- C1 trace: the same snapshot `{"a/b": 1.0}` arrives again. -/
def traceS1 := traceP1.1.receive_snapshot [("a/b", .num 1)]

/-- C1 trace, second detection pass. -/
def traceP2 := traceS1.detect_changed

/-- C1 trace: the snapshot `{"a/b": 2.0}` arrives. -/
def traceS2 := traceP2.1.receive_snapshot [("a/b", .num 2)]

/-- C1 trace, third detection pass. -/
def traceP3 := traceS2.detect_changed

/-- C1: in a detection pass, every snapshot entry whose value is new or
differs from the last-seen (`previous_values`) one updates its registered
dataref, with cascade exactly when the path is monitored, and entries equal
to the last-seen value are skipped; on the spec's trace the three passes
fire exactly one `dataref_changed` (old None, new 1.0), then none, then one
(old 1.0, new 2.0). -/
theorem C1_detect_changed_cascade :
    (∀ (s : Simulator) (d : String) (v : SimValue) (dref : Dataref),
        dictGet s.all_datarefs d = some dref →
        dictGet s.previous_values d ≠ some v →
        s.detectOne d v
          = .ok ({ s with all_datarefs := dictSet s.all_datarefs d (dref.update_value (some v) (dictGet s.datarefs_to_monitor d).isSome).1 },
              (dref.update_value (some v) (dictGet s.datarefs_to_monitor d).isSome).2))
    ∧ (∀ (s : Simulator) (d : String) (v : SimValue),
        dictGet s.previous_values d = some v → s.detectOne d v = .ok (s, []))
    ∧ changedEvents traceP1.2.1 = [.changed 0 "a/b" none (some (.num 1))]
    ∧ traceP1.2.2 = none
    ∧ changedEvents traceP2.2.1 = []
    ∧ traceP2.2.2 = none
    ∧ changedEvents traceP3.2.1 = [.changed 0 "a/b" (some (.num 1)) (some (.num 2))]
    ∧ traceP3.2.2 = none := by
  refine ⟨?_, ?_, ?_, ?_, ?_, ?_, ?_, ?_⟩
  · intro s d v dref ha hne
    by_cases hm : dictGet s.datarefs_to_monitor d ≠ none
    · have hs : (dictGet s.datarefs_to_monitor d).isSome = true :=
        Option.isSome_iff_ne_none.mpr hm
      simp only [Simulator.detectOne, if_pos (Or.inr hne), ha, if_pos hm, hs]
    · have hs : (dictGet s.datarefs_to_monitor d).isSome = false := by
        rw [not_not] at hm
        simp [hm]
      simp only [Simulator.detectOne, if_pos (Or.inr hne), ha, if_neg hm, hs]
  · intro s d v h
    have hc : ¬ (dictGet s.previous_values d = none ∨ dictGet s.previous_values d ≠ some v) := by
      rw [h]
      simp
    simp only [Simulator.detectOne, if_neg hc]
  · decide
  · decide
  · decide
  · decide
  · decide
  · decide

/-- C1 witness: the first trace pass's per-path step on `"a/b"` updates the
registered dataref with cascade (the path is monitored). -/
theorem C1_witness :
    traceS0.detectOne "a/b" (.num 1)
      = .ok ({ traceS0 with all_datarefs := dictSet traceS0.all_datarefs "a/b" (drefABL.update_value (some (.num 1)) (dictGet traceS0.datarefs_to_monitor "a/b").isSome).1 },
          (drefABL.update_value (some (.num 1)) (dictGet traceS0.datarefs_to_monitor "a/b").isSome).2) :=
  C1_detect_changed_cascade.1 traceS0 "a/b" (.num 1) drefABL (by decide) (by decide)

/-! ## Framing parser: C2 -/

/-- No magic byte: the scan keeps the whole buffer and yields no message. -/
theorem extractMessages_none (m : ℕ) (buf : List ℕ) (hf : pyFind buf m = none) :
    extractMessages m buf = (buf, []) := by
  rw [extractMessages.eq_def, hf]

/-- Magic byte found but the length byte is not yet buffered: wait. -/
theorem extractMessages_short (m : ℕ) (buf : List ℕ) (pos : ℕ)
    (hf : pyFind buf m = some pos) (h2 : buf.length < pos + 2) :
    extractMessages m buf = (buf, []) := by
  rw [extractMessages.eq_def, hf]
  dsimp only
  rw [dif_pos h2]

/-- Magic byte and length byte present but the body incomplete: wait. -/
theorem extractMessages_incomplete (m : ℕ) (buf : List ℕ) (pos : ℕ)
    (hf : pyFind buf m = some pos) (h2 : ¬ buf.length < pos + 2)
    (h3 : buf.length < pos + (buf.getD (pos + 1) 0) + 2) :
    extractMessages m buf = (buf, []) := by
  rw [extractMessages.eq_def, hf]
  dsimp only
  rw [dif_neg h2, dif_pos h3]

/-- A complete message at the first magic byte: extract it and continue on
the remaining buffer. -/
theorem extractMessages_step (m : ℕ) (buf : List ℕ) (pos : ℕ)
    (hf : pyFind buf m = some pos) (h2 : ¬ buf.length < pos + 2)
    (h3 : ¬ buf.length < pos + (buf.getD (pos + 1) 0) + 2) :
    extractMessages m buf
      = ((extractMessages m (buf.drop (pos + (buf.getD (pos + 1) 0) + 2))).1,
        ((buf.drop (pos + 2)).take (buf.getD (pos + 1) 0))
          :: (extractMessages m (buf.drop (pos + (buf.getD (pos + 1) 0) + 2))).2) := by
  rw [extractMessages.eq_def, hf]
  dsimp only
  rw [dif_neg h2, dif_neg h3]

/-- The first occurrence in a prefix stays the first occurrence after more
bytes arrive. -/
theorem pyFind_append {α : Type} [DecidableEq α] (l t : List α) (c : α) (i : ℕ)
    (h : pyFind l c = some i) : pyFind (l ++ t) c = some i := by
  induction l generalizing i with
  | nil => exact absurd h (by simp [pyFind])
  | cons b l' ih =>
    rw [pyFind.eq_def] at h
    rw [List.cons_append, pyFind.eq_def]
    dsimp only at h ⊢
    by_cases hb : b = c
    · rwa [if_pos hb] at h ⊢
    · rw [if_neg hb] at h ⊢
      rcases hj : pyFind l' c with _ | j
      · rw [hj] at h
        exact absurd h (by simp)
      · rw [hj] at h
        rw [Option.map_some'] at h
        rw [ih j hj]
        simpa using h

/-- A found index is inside the buffer. -/
theorem pyFind_lt {α : Type} [DecidableEq α] (l : List α) (c : α) (i : ℕ)
    (h : pyFind l c = some i) : i < l.length := by
  induction l generalizing i with
  | nil => exact absurd h (by simp [pyFind])
  | cons b l' ih =>
    rw [pyFind.eq_def] at h
    dsimp only at h
    by_cases hb : b = c
    · rw [if_pos hb] at h
      simp only [Option.some.injEq] at h
      simp [← h]
    · rw [if_neg hb] at h
      rcases hj : pyFind l' c with _ | j
      · rw [hj] at h
        exact absurd h (by simp)
      · rw [hj] at h
        rw [Option.map_some'] at h
        simp only [Option.some.injEq] at h
        have := ih j hj
        simp only [List.length_cons]
        omega

/-- Re-scanning a cumulative buffer is compositional: scanning `buf ++ c`
extracts exactly the messages of scanning `buf` followed by the messages of
scanning the leftover of `buf` with `c` appended. -/
theorem extractMessages_append (m : ℕ) (buf c : List ℕ) :
    extractMessages m (buf ++ c)
      = ((extractMessages m ((extractMessages m buf).1 ++ c)).1,
         (extractMessages m buf).2
           ++ (extractMessages m ((extractMessages m buf).1 ++ c)).2) := by
  rcases hf : pyFind buf m with _ | pos
  · rw [extractMessages_none m buf hf]
    simp
  · by_cases h2 : buf.length < pos + 2
    · rw [extractMessages_short m buf pos hf h2]
      simp
    · by_cases h3 : buf.length < pos + (buf.getD (pos + 1) 0) + 2
      · rw [extractMessages_incomplete m buf pos hf h2 h3]
        simp
      · have hf2 : pyFind (buf ++ c) m = some pos := pyFind_append buf c m pos hf
        have hlen2 : ¬ ((buf ++ c).length < pos + 2) := by
          rw [List.length_append]
          omega
        have hgetD : (buf ++ c).getD (pos + 1) 0 = buf.getD (pos + 1) 0 :=
          List.getD_append _ _ _ _ (by omega)
        have hlen3 : ¬ ((buf ++ c).length < pos + ((buf ++ c).getD (pos + 1) 0) + 2) := by
          rw [hgetD, List.length_append]
          omega
        have hdrop2 : (buf ++ c).drop (pos + 2) = buf.drop (pos + 2) ++ c :=
          List.drop_append_of_le_length (by omega)
        have htake : ((buf ++ c).drop (pos + 2)).take ((buf ++ c).getD (pos + 1) 0)
            = (buf.drop (pos + 2)).take (buf.getD (pos + 1) 0) := by
          rw [hgetD, hdrop2, List.take_append_of_le_length]
          rw [List.length_drop]
          omega
        have hdropE : (buf ++ c).drop (pos + ((buf ++ c).getD (pos + 1) 0) + 2)
            = buf.drop (pos + (buf.getD (pos + 1) 0) + 2) ++ c := by
          rw [hgetD]
          exact List.drop_append_of_le_length (by omega)
        rw [extractMessages_step m (buf ++ c) pos hf2 hlen2 hlen3, htake, hdropE,
          extractMessages_step m buf pos hf h2 h3]
        rw [extractMessages_append m (buf.drop (pos + (buf.getD (pos + 1) 0) + 2)) c]
        simp
termination_by buf.length
decreasing_by
  rw [List.length_drop]
  omega

/-- The buffer left over by a scan contains no further complete message:
scanning it again extracts nothing. -/
theorem extractMessages_leftover (m : ℕ) (buf : List ℕ) :
    extractMessages m (extractMessages m buf).1 = ((extractMessages m buf).1, []) := by
  rcases hf : pyFind buf m with _ | pos
  · rw [extractMessages_none m buf hf]
    exact extractMessages_none m buf hf
  · by_cases h2 : buf.length < pos + 2
    · rw [extractMessages_short m buf pos hf h2]
      exact extractMessages_short m buf pos hf h2
    · by_cases h3 : buf.length < pos + (buf.getD (pos + 1) 0) + 2
      · rw [extractMessages_incomplete m buf pos hf h2 h3]
        exact extractMessages_incomplete m buf pos hf h2 h3
      · rw [extractMessages_step m buf pos hf h2 h3]
        exact extractMessages_leftover m (buf.drop (pos + (buf.getD (pos + 1) 0) + 2))
termination_by buf.length
decreasing_by
  rw [List.length_drop]
  omega

/-- Feeding two chunks in sequence equals feeding their concatenation. -/
theorem magic_parse_append (st : LoupedeckState) (c1 c2 : List ℕ) (m : ℕ) :
    magic_byte_length_parse (magic_byte_length_parse st c1 m) c2 m
      = magic_byte_length_parse st (c1 ++ c2) m := by
  simp only [magic_byte_length_parse]
  rw [← List.append_assoc]
  rw [extractMessages_append m (st.buffer ++ c1) c2]
  simp [List.append_assoc]

/-- C2: from any quiescent parser state (in particular the initial empty
buffer), feeding a byte stream one byte at a time produces exactly the same
final state — buffer and message sequence — as feeding the whole stream in
one chunk; this holds for all streams, hence for messages of every payload
length including 0, 1, 0x7F and 0x80. -/
theorem C2_parse_byte_at_a_time (st : LoupedeckState) (stream : List ℕ)
    (hq : extractMessages 0x82 st.buffer = (st.buffer, [])) :
    stream.foldl (fun a b => magic_byte_length_parse a [b]) st
      = magic_byte_length_parse st stream := by
  induction stream generalizing st with
  | nil =>
    simp only [List.foldl_nil, magic_byte_length_parse, List.append_nil, hq]
  | cons b rest ih =>
    rw [List.foldl_cons]
    have hq2 : extractMessages 0x82 (magic_byte_length_parse st [b]).buffer
        = ((magic_byte_length_parse st [b]).buffer, []) := by
      simp only [magic_byte_length_parse]
      exact extractMessages_leftover 0x82 (st.buffer ++ [b])
    rw [ih (magic_byte_length_parse st [b]) hq2]
    rw [magic_parse_append]
    rfl

/-- C2 witness: a stream holding one garbage byte, a 3-byte message and a
0-byte message parses identically byte-at-a-time and in one chunk, from the
initial empty-buffer state. -/
theorem C2_witness :
    ([7, 0x82, 3, 1, 2, 3, 0x82, 0].foldl
        (fun a b => magic_byte_length_parse a [b]) (⟨[], []⟩ : LoupedeckState))
      = magic_byte_length_parse ⟨[], []⟩ [7, 0x82, 3, 1, 2, 3, 0x82, 0] :=
  C2_parse_byte_at_a_time ⟨[], []⟩ [7, 0x82, 3, 1, 2, 3, 0x82, 0]
    (extractMessages_none 0x82 [] rfl)
